import Mathlib

/-!
Verification of the attendance demo application (src/src/App.jsx).

The application state is a worker roster, an attendance table (a JS object
mapping an ISO date string to a JS object mapping a worker id to a status
string, normally "P" or "A"), the logged-in supervisor and the selected
edit date.  JS objects are embedded as association lists of string keys,
looked up with List.lookup; a property write is embedded as objSet, which
overwrites the value in place when the key is present and appends the
binding otherwise, exactly as JS object assignment and object spread do.

The operations embedded below, each named after its source function:
  computeAutoAbsent (line 412), handleMark (line 108), handleBulk
  (line 117), logout (line 128), loadLS (line 31).
The real clock behind dateOffset (line 424) is passed in as an explicit
function from the offset to the date string.
-/

/-- A worker record: id, name, trade (DEFAULT_WORKERS, line 9). -/
structure Worker where
  id : String
  name : String
  trade : String
deriving DecidableEq, Repr

/-- A supervisor record: id, name (SUPERVISORS, line 17). -/
structure Supervisor where
  id : String
  name : String
deriving DecidableEq, Repr

/-- One day of the attendance table: a JS object from worker id to a
status string ("P" or "A" when well formed). -/
abbrev DayMap := List (String × String)

/-- The attendance table: a JS object from date string to a day map
(the attendance state, line 96). -/
abbrev AttendanceTable := List (String × DayMap)

/-- JS object property write, the semantics of day[k] = v and of the
spread-and-override object literal: if the key is present its value is
overwritten in place (the key keeps its position), otherwise the binding
is appended at the end. -/
def objSet {α : Type} (l : List (String × α)) (k : String) (v : α) :
    List (String × α) :=
  if l.any (fun p => p.1 == k) then
    l.map (fun p => if p.1 == k then (k, v) else p)
  else l ++ [(k, v)]

/-- The per-day absence test inside computeAutoAbsent (line 418): the JS
expression (m[w.id] ? m[w.id] === "A" : true).  A missing entry is
undefined, hence falsy; the empty string is the only falsy string. -/
def effectivelyAbsent (m : DayMap) (wid : String) : Bool :=
  match m.lookup wid with
  | some s => if s = "" then true else s == "A"
  | none => true

/-- computeAutoAbsent (line 412): flag each roster worker that is
effectively absent on all three of the dates off (-1), off (-2),
off (-3), where off is the dateOffset clock function (line 424).
The JS for-loop that pushes each flagged worker is a filter. -/
def computeAutoAbsent (off : Int → String) (attendance : AttendanceTable)
    (workers : List Worker) : List Worker :=
  let days := [1, 2, 3].map (fun d => off (-d))
  let dayMaps := days.map (fun d => (attendance.lookup d).getD [])
  workers.filter (fun w => dayMaps.all (fun m => effectivelyAbsent m w.id))

/-- The mutable state owned by the App component (lines 94 to 97). -/
structure AppState where
  supervisor : Option Supervisor
  workers : List Worker
  attendance : AttendanceTable
  date : String
deriving Repr

/-- handleMark (line 108): overwrite one worker's status for the selected
date; the day object is rebuilt by spread from the existing one (or from
the empty object) with the one key overridden, then stored back. -/
def handleMark (st : AppState) (w : Worker) (status : String) : AppState :=
  let day := objSet ((st.attendance.lookup st.date).getD []) w.id status
  { st with attendance := objSet st.attendance st.date day }

/-- handleBulk (line 117): copy the selected date's day object (or the
empty object), assign the status to every roster worker's key in roster
order, and store the result back under the selected date. -/
def handleBulk (st : AppState) (status : String) : AppState :=
  let day := st.workers.foldl (fun day w => objSet day w.id status)
    ((st.attendance.lookup st.date).getD [])
  { st with attendance := objSet st.attendance st.date day }

/-- logout (line 128): clear the supervisor, touch nothing else. -/
def logout (st : AppState) : AppState :=
  { st with supervisor := none }

/-- The date-picker change handler (line 190): replace the selected edit
date, a pure view-state change. -/
def setDate (st : AppState) (d : String) : AppState :=
  { st with date := d }

/-- autoAbsentList (line 157): the memoised flagged list, a function of
the attendance table and the roster only. -/
def autoAbsentList (off : Int → String) (st : AppState) : List Worker :=
  computeAutoAbsent off st.attendance st.workers

/-- loadLS (line 31): stored is the raw string held in local storage for
the key (none when absent), parse is JSON.parse returning none where the
JS version would throw, and the try/catch plus the truthiness test on the
raw string turn every failure into the fallback. -/
def loadLS {α : Type} (stored : Option String) (parse : String → Option α)
    (fallback : α) : α :=
  match stored with
  | none => fallback
  | some raw => if raw = "" then fallback else (parse raw).getD fallback

/-- A well-formed attendance table: every stored status is "P" or "A"
(section 3 of the specification: AttendanceStatus is one of Present,
Absent). -/
def wellFormed (att : AttendanceTable) : Prop :=
  ∀ p ∈ att, ∀ q ∈ p.2, q.2 = "P" ∨ q.2 = "A"

instance : DecidablePred wellFormed := fun att =>
  inferInstanceAs (Decidable (∀ p ∈ att, ∀ q ∈ p.2, q.2 = "P" ∨ q.2 = "A"))

/-- A concrete clock for the evaluation theorems: the three days before
today are d1, d2 and d3, every other offset is d0. -/
def off3 : Int → String :=
  fun i => if i = -1 then "d1" else if i = -2 then "d2" else if i = -3 then "d3" else "d0"

/-- A concrete worker, mirroring the self-test roster (line 434). -/
def w1 : Worker := ⟨"W1", "Worker One", "Mason"⟩

/-- A second concrete worker from the self-test roster. -/
def w2 : Worker := ⟨"W2", "Worker Two", "Helper"⟩

/-- The self-test attendance of case 1 (line 436): W1 absent on all
three preceding days, W2 never marked. -/
def attCase1 : AttendanceTable :=
  [("d1", [("W1", "A")]), ("d2", [("W1", "A")]), ("d3", [("W1", "A")])]

/-- The self-test attendance of case 2 (line 445): W2 present on the
first preceding day, absent on the other two. -/
def attCase2 : AttendanceTable :=
  [("d1", [("W2", "P")]), ("d2", [("W2", "A")]), ("d3", [("W2", "A")])]

/-- A concrete state used to evaluate the state operations. -/
def st0 : AppState :=
  { supervisor := some ⟨"S-1", "Site Supervisor A"⟩
    workers := [w1, w2]
    attendance := [("d1", [("W1", "P"), ("X9", "A")])]
    date := "d1" }

theorem lookup_mem {α : Type} {l : List (String × α)} {k : String} {v : α}
    (h : l.lookup k = some v) : (k, v) ∈ l := by
  induction l with
  | nil => simp [List.lookup] at h
  | cons p t ih =>
    obtain ⟨a, b⟩ := p
    rw [List.lookup_cons] at h
    by_cases hk : k = a
    · subst hk
      simp at h
      subst h
      exact List.mem_cons_self _ _
    · have : (k == a) = false := beq_false_of_ne hk
      rw [this] at h
      exact List.mem_cons_of_mem _ (ih h)

theorem lookup_eq_none_of_any_false {α : Type} {l : List (String × α)} {k : String}
    (h : l.any (fun p => p.1 == k) = false) : l.lookup k = none := by
  induction l with
  | nil => rfl
  | cons p t ih =>
    obtain ⟨a, b⟩ := p
    simp only [List.any_cons, Bool.or_eq_false_iff, beq_eq_false_iff_ne, ne_eq] at h
    rw [List.lookup_cons, beq_false_of_ne (fun hh => h.1 hh.symm)]
    exact ih (by simp [List.any_eq_false] at h ⊢; exact fun x hx => h.2 x hx)

theorem lookup_map_overwrite_self {α : Type} {l : List (String × α)} {k : String} {v : α}
    (h : l.any (fun p => p.1 == k) = true) :
    (l.map (fun p => if p.1 == k then (k, v) else p)).lookup k = some v := by
  induction l with
  | nil => simp at h
  | cons p t ih =>
    obtain ⟨a, b⟩ := p
    by_cases ha : a = k
    · subst ha
      simp [List.lookup_cons]
    · have ha' : (a == k) = false := beq_false_of_ne ha
      simp only [List.any_cons, ha', Bool.false_or] at h
      simp only [List.map_cons, ha', Bool.false_eq_true, if_false, List.lookup_cons,
        beq_false_of_ne (fun hh : k = a => ha hh.symm)]
      exact ih h

theorem lookup_map_overwrite_ne {α : Type} (l : List (String × α)) (k : String) (v : α)
    {q : String} (h : q ≠ k) :
    (l.map (fun p => if p.1 == k then (k, v) else p)).lookup q = l.lookup q := by
  induction l with
  | nil => rfl
  | cons p t ih =>
    obtain ⟨a, b⟩ := p
    by_cases ha : a = k
    · subst ha
      simp only [List.map_cons, BEq.refl, if_true, List.lookup_cons, beq_false_of_ne h]
      exact ih
    · have ha' : (a == k) = false := beq_false_of_ne ha
      simp only [List.map_cons, ha', Bool.false_eq_true, if_false, List.lookup_cons]
      cases hq : (q == a) with
      | true => rfl
      | false => exact ih

theorem lookup_append_single_self {α : Type} {l : List (String × α)} {k : String} {v : α}
    (h : l.lookup k = none) : (l ++ [(k, v)]).lookup k = some v := by
  induction l with
  | nil => simp [List.lookup]
  | cons p t ih =>
    obtain ⟨a, b⟩ := p
    rw [List.lookup_cons] at h
    rw [List.cons_append, List.lookup_cons]
    cases hk : (k == a) with
    | true => rw [hk] at h; simp at h
    | false => rw [hk] at h; exact ih h

theorem lookup_append_single_ne {α : Type} (l : List (String × α)) (k : String) (v : α)
    {q : String} (h : q ≠ k) : (l ++ [(k, v)]).lookup q = l.lookup q := by
  induction l with
  | nil => simp [List.lookup, beq_false_of_ne h]
  | cons p t ih =>
    obtain ⟨a, b⟩ := p
    rw [List.cons_append, List.lookup_cons, List.lookup_cons]
    cases hq : (q == a) with
    | true => rfl
    | false => exact ih

theorem lookup_objSet_self {α : Type} (l : List (String × α)) (k : String) (v : α) :
    (objSet l k v).lookup k = some v := by
  unfold objSet
  split
  case isTrue h => exact lookup_map_overwrite_self h
  case isFalse h =>
    rw [Bool.not_eq_true] at h
    exact lookup_append_single_self (lookup_eq_none_of_any_false h)

theorem lookup_objSet_ne {α : Type} (l : List (String × α)) (k : String) (v : α)
    {q : String} (h : q ≠ k) : (objSet l k v).lookup q = l.lookup q := by
  unfold objSet
  split
  · exact lookup_map_overwrite_ne l k v h
  · exact lookup_append_single_ne l k v h

theorem any_key_map_overwrite {α : Type} (l : List (String × α)) (k : String) (v : α) :
    ((l.map (fun p => if p.1 == k then (k, v) else p)).any (fun p => p.1 == k))
      = l.any (fun p => p.1 == k) := by
  induction l with
  | nil => rfl
  | cons p t ih =>
    obtain ⟨a, b⟩ := p
    by_cases ha : a = k
    · subst ha
      simp
    · have ha' : (a == k) = false := beq_false_of_ne ha
      simp only [List.map_cons, ha', Bool.false_eq_true, if_false, List.any_cons]
      rw [ih]

theorem map_overwrite_of_any_false {α : Type} {l : List (String × α)} {k : String}
    (v : α) (h : l.any (fun p => p.1 == k) = false) :
    l.map (fun p => if p.1 == k then (k, v) else p) = l := by
  induction l with
  | nil => rfl
  | cons p t ih =>
    obtain ⟨a, b⟩ := p
    simp only [List.any_cons, Bool.or_eq_false_iff] at h
    simp only [List.map_cons, h.1, Bool.false_eq_true, if_false]
    rw [ih h.2]

theorem map_overwrite_overwrite {α : Type} (l : List (String × α)) (k : String)
    (v v' : α) :
    ((l.map (fun p => if p.1 == k then (k, v) else p)).map
        (fun p => if p.1 == k then (k, v') else p))
      = l.map (fun p => if p.1 == k then (k, v') else p) := by
  rw [List.map_map]
  apply List.map_congr_left
  intro p _
  by_cases ha : p.1 = k
  · simp [Function.comp, ha]
  · simp [Function.comp, beq_false_of_ne ha]

theorem objSet_of_any_true {α : Type} {l : List (String × α)} {k : String} (v : α)
    (h : l.any (fun p => p.1 == k) = true) :
    objSet l k v = l.map (fun p => if p.1 == k then (k, v) else p) := by
  unfold objSet
  rw [h]
  simp

theorem objSet_of_any_false {α : Type} {l : List (String × α)} {k : String} (v : α)
    (h : l.any (fun p => p.1 == k) = false) :
    objSet l k v = l ++ [(k, v)] := by
  unfold objSet
  rw [h]
  simp

theorem objSet_objSet_same {α : Type} (l : List (String × α)) (k : String) (v v' : α) :
    objSet (objSet l k v) k v' = objSet l k v' := by
  by_cases h : l.any (fun p => p.1 == k) = true
  · rw [objSet_of_any_true v h, objSet_of_any_true v' h,
      objSet_of_any_true v' ((any_key_map_overwrite l k v).trans h)]
    exact map_overwrite_overwrite l k v v'
  · rw [Bool.not_eq_true] at h
    rw [objSet_of_any_false v h, objSet_of_any_false v' h]
    have hany : ((l ++ [(k, v)]).any (fun p => p.1 == k)) = true := by
      rw [List.any_append]
      simp
    rw [objSet_of_any_true v' hany, List.map_append, map_overwrite_of_any_false v' h]
    simp

theorem lookup_foldl_objSet_of_mem {workers : List Worker} {day : DayMap}
    {status k : String}
    (h : day.lookup k = some status ∨ k ∈ workers.map Worker.id) :
    (workers.foldl (fun d w => objSet d w.id status) day).lookup k = some status := by
  induction workers generalizing day with
  | nil =>
    cases h with
    | inl h => exact h
    | inr h => simp at h
  | cons w t ih =>
    rw [List.foldl_cons]
    apply ih
    by_cases hk : k = w.id
    · subst hk
      exact Or.inl (lookup_objSet_self day w.id status)
    · cases h with
      | inl h => exact Or.inl ((lookup_objSet_ne day w.id status hk).trans h)
      | inr h =>
        rw [List.map_cons, List.mem_cons] at h
        cases h with
        | inl h => exact absurd h hk
        | inr h => exact Or.inr h

theorem lookup_foldl_objSet_of_not_mem {workers : List Worker} {day : DayMap}
    {status k : String} (h : ∀ w ∈ workers, k ≠ w.id) :
    (workers.foldl (fun d w => objSet d w.id status) day).lookup k = day.lookup k := by
  induction workers generalizing day with
  | nil => rfl
  | cons w t ih =>
    rw [List.foldl_cons]
    rw [ih (fun x hx => h x (List.mem_cons_of_mem _ hx))]
    exact lookup_objSet_ne day w.id status (h w (List.mem_cons_self _ _))

theorem mem_computeAutoAbsent (off : Int → String) (att : AttendanceTable)
    (workers : List Worker) (w : Worker) :
    w ∈ computeAutoAbsent off att workers ↔
      w ∈ workers ∧ ∀ d ∈ [off (-1), off (-2), off (-3)],
        effectivelyAbsent ((att.lookup d).getD []) w.id = true := by
  simp only [computeAutoAbsent, List.map_cons, List.map_nil]
  rw [List.mem_filter]
  simp [List.all_eq_true]

theorem effectivelyAbsent_iff_of_wf {att : AttendanceTable} (hwf : wellFormed att)
    (d wid : String) :
    effectivelyAbsent ((att.lookup d).getD []) wid = true ↔
      (((att.lookup d).getD []).lookup wid = some "A"
        ∨ ((att.lookup d).getD []).lookup wid = none) := by
  cases hatt : att.lookup d with
  | none => simp [effectivelyAbsent]
  | some m =>
    simp only [Option.getD_some]
    cases hm : m.lookup wid with
    | none => simp [effectivelyAbsent, hm]
    | some s =>
      have hs : s = "P" ∨ s = "A" := hwf (d, m) (lookup_mem hatt) (wid, s) (lookup_mem hm)
      have hne : s ≠ "" := by rcases hs with h | h <;> simp [h]
      simp [effectivelyAbsent, hm, hne]

/-- C1: for every roster and well-formed attendance table (statuses only
"P" or "A"), a worker is flagged by computeAutoAbsent iff it is on the
roster and, on each of the three dates one, two and three days before
today, its entry is "A" or missing; a single present entry on any of the
three days excludes it. -/
theorem computeAutoAbsent_flag_iff (off : Int → String) (att : AttendanceTable)
    (workers : List Worker) (w : Worker) (hwf : wellFormed att) :
    w ∈ computeAutoAbsent off att workers ↔
      w ∈ workers ∧ ∀ d ∈ [off (-1), off (-2), off (-3)],
        (((att.lookup d).getD []).lookup w.id = some "A"
          ∨ ((att.lookup d).getD []).lookup w.id = none) := by
  rw [mem_computeAutoAbsent]
  refine and_congr_right fun _ => ?_
  refine forall_congr' fun d => imp_congr_right fun _ => ?_
  exact effectivelyAbsent_iff_of_wf hwf d w.id

/-- C1 witness: the characterisation evaluated on the self-test table of
case 1, which is well formed. -/
theorem computeAutoAbsent_flag_iff_witness :
    wellFormed attCase1 ∧
    (w1 ∈ computeAutoAbsent off3 attCase1 [w1, w2] ↔
      w1 ∈ [w1, w2] ∧ ∀ d ∈ [off3 (-1), off3 (-2), off3 (-3)],
        (((attCase1.lookup d).getD []).lookup w1.id = some "A"
          ∨ ((attCase1.lookup d).getD []).lookup w1.id = none)) :=
  ⟨by decide, computeAutoAbsent_flag_iff off3 attCase1 [w1, w2] w1 (by decide)⟩

/-- C2: for every roster and attendance table, the flagged list is a
subset of the roster in the same relative order (a sublist), and when the
roster's worker ids are unique it has no duplicates. -/
theorem computeAutoAbsent_sublist_nodup (off : Int → String)
    (att : AttendanceTable) (workers : List Worker) :
    computeAutoAbsent off att workers ⊆ workers ∧
    List.Sublist (computeAutoAbsent off att workers) workers ∧
    ((workers.map Worker.id).Nodup → (computeAutoAbsent off att workers).Nodup) := by
  have hs : List.Sublist (computeAutoAbsent off att workers) workers :=
    List.filter_sublist workers
  exact ⟨hs.subset, hs, fun hnd => hs.nodup (List.Nodup.of_map _ hnd)⟩

/-- C2 witness: order and duplicate freedom evaluated on the self-test
roster, whose ids are distinct. -/
theorem computeAutoAbsent_sublist_nodup_witness :
    List.Sublist (computeAutoAbsent off3 attCase1 [w1, w2]) [w1, w2] ∧
    (computeAutoAbsent off3 attCase1 [w1, w2]).Nodup :=
  ⟨(computeAutoAbsent_sublist_nodup off3 attCase1 [w1, w2]).2.1,
   (computeAutoAbsent_sublist_nodup off3 attCase1 [w1, w2]).2.2 (by decide)⟩

/-- C3: computeAutoAbsent is total with no error case: on the empty
attendance table it returns the whole roster, and on the empty roster it
returns the empty list for any table. -/
theorem computeAutoAbsent_total (off : Int → String) (att : AttendanceTable)
    (workers : List Worker) :
    computeAutoAbsent off [] workers = workers ∧
    computeAutoAbsent off att [] = [] := by
  constructor
  · apply List.filter_eq_self.mpr
    intro a _
    rfl
  · rfl

/-- C4: the flagged list depends only on the table entries at the three
dates one, two and three days before today: two tables agreeing there
give the same result, and the user-selected edit date plays no part
(changing it leaves autoAbsentList unchanged). -/
theorem computeAutoAbsent_three_day_frame (off : Int → String)
    (att1 att2 : AttendanceTable) (workers : List Worker)
    (h : ∀ d ∈ [off (-1), off (-2), off (-3)], att1.lookup d = att2.lookup d) :
    computeAutoAbsent off att1 workers = computeAutoAbsent off att2 workers ∧
    ∀ (st : AppState) (d : String),
      autoAbsentList off (setDate st d) = autoAbsentList off st := by
  constructor
  · have e1 : att1.lookup (off (-1)) = att2.lookup (off (-1)) := h _ (by simp)
    have e2 : att1.lookup (off (-2)) = att2.lookup (off (-2)) := h _ (by simp)
    have e3 : att1.lookup (off (-3)) = att2.lookup (off (-3)) := h _ (by simp)
    simp only [computeAutoAbsent, List.map_cons, List.map_nil]
    rw [e1, e2, e3]
  · intro st d
    rfl

/-- C4 witness: a table holding only an entry at an unrelated date gives
the same flagged list as the empty table. -/
theorem computeAutoAbsent_three_day_frame_witness :
    computeAutoAbsent off3 [("d0", [("W1", "P")])] [w1, w2]
      = computeAutoAbsent off3 [] [w1, w2] :=
  (computeAutoAbsent_three_day_frame off3 [("d0", [("W1", "P")])] [] [w1, w2]
    (by decide)).1

/-- C5: after handleBulk, reading the selected date's entries gives the
written status for every roster worker, and every other date's entries
are unchanged. -/
theorem handleBulk_markAll (st : AppState) (status : String) :
    (∀ w ∈ st.workers,
      (((handleBulk st status).attendance.lookup st.date).getD []).lookup w.id
        = some status) ∧
    ∀ d, d ≠ st.date →
      (handleBulk st status).attendance.lookup d = st.attendance.lookup d := by
  have hatt : (handleBulk st status).attendance =
      objSet st.attendance st.date
        (st.workers.foldl (fun day w => objSet day w.id status)
          ((st.attendance.lookup st.date).getD [])) := rfl
  constructor
  · intro w hw
    rw [hatt, lookup_objSet_self]
    simp only [Option.getD_some]
    exact lookup_foldl_objSet_of_mem (Or.inr (List.mem_map_of_mem _ hw))
  · intro d hd
    rw [hatt]
    exact lookup_objSet_ne st.attendance st.date _ hd

/-- C5 witness: marking all absent on the concrete state writes "A" for
worker W1 on the selected date d1 and leaves date d2 untouched. -/
theorem handleBulk_markAll_witness :
    (((handleBulk st0 "A").attendance.lookup "d1").getD []).lookup "W1"
      = some "A" ∧
    (handleBulk st0 "A").attendance.lookup "d2" = st0.attendance.lookup "d2" :=
  ⟨(handleBulk_markAll st0 "A").1 w1 (by decide),
   (handleBulk_markAll st0 "A").2 "d2" (by decide)⟩

/-- C6: handleMark writes exactly one worker's status for the selected
date: that worker reads back the written status, every other worker's
entry on that date is unchanged, and every other date is unchanged. -/
theorem handleMark_markOne (st : AppState) (w : Worker) (status : String) :
    ((((handleMark st w status).attendance.lookup st.date).getD []).lookup w.id
      = some status) ∧
    (∀ q : String, q ≠ w.id →
      (((handleMark st w status).attendance.lookup st.date).getD []).lookup q
        = ((st.attendance.lookup st.date).getD []).lookup q) ∧
    ∀ d, d ≠ st.date →
      (handleMark st w status).attendance.lookup d = st.attendance.lookup d := by
  have hatt : (handleMark st w status).attendance =
      objSet st.attendance st.date
        (objSet ((st.attendance.lookup st.date).getD []) w.id status) := rfl
  refine ⟨?_, ?_, ?_⟩
  · rw [hatt, lookup_objSet_self]
    simp only [Option.getD_some]
    exact lookup_objSet_self _ _ _
  · intro q hq
    rw [hatt, lookup_objSet_self]
    simp only [Option.getD_some]
    exact lookup_objSet_ne _ _ _ hq
  · intro d hd
    rw [hatt]
    exact lookup_objSet_ne _ _ _ hd

/-- C6 witness: marking W1 absent on the concrete state writes "A" for
W1 on d1, keeps the unrelated entry X9 on d1, and keeps date d2. -/
theorem handleMark_markOne_witness :
    (((handleMark st0 w1 "A").attendance.lookup "d1").getD []).lookup "W1"
      = some "A" ∧
    (((handleMark st0 w1 "A").attendance.lookup "d1").getD []).lookup "X9"
      = ((st0.attendance.lookup "d1").getD []).lookup "X9" ∧
    (handleMark st0 w1 "A").attendance.lookup "d2" = st0.attendance.lookup "d2" :=
  ⟨(handleMark_markOne st0 w1 "A").1,
   (handleMark_markOne st0 w1 "A").2.1 "X9" (by decide),
   (handleMark_markOne st0 w1 "A").2.2 "d2" (by decide)⟩

/-- C7: last write wins with no history: marking the same worker "P" and
then "A" on the same selected date yields exactly the state of marking
"A" once, and that worker's entry for the date reads "A". -/
theorem handleMark_last_write_wins (st : AppState) (w : Worker) :
    handleMark (handleMark st w "P") w "A" = handleMark st w "A" ∧
    (((handleMark (handleMark st w "P") w "A").attendance.lookup st.date).getD
        []).lookup w.id = some "A" := by
  have key : (handleMark (handleMark st w "P") w "A").attendance
      = (handleMark st w "A").attendance := by
    show objSet (objSet st.attendance st.date
          (objSet ((st.attendance.lookup st.date).getD []) w.id "P")) st.date
        (objSet (((objSet st.attendance st.date
            (objSet ((st.attendance.lookup st.date).getD []) w.id "P")).lookup
              st.date).getD []) w.id "A")
      = objSet st.attendance st.date
          (objSet ((st.attendance.lookup st.date).getD []) w.id "A")
    rw [lookup_objSet_self]
    simp only [Option.getD_some]
    rw [objSet_objSet_same, objSet_objSet_same]
  constructor
  · exact congrArg (fun a => { st with attendance := a }) key
  · rw [key]
    have hatt : (handleMark st w "A").attendance =
        objSet st.attendance st.date
          (objSet ((st.attendance.lookup st.date).getD []) w.id "A") := rfl
    rw [hatt, lookup_objSet_self]
    simp only [Option.getD_some]
    exact lookup_objSet_self _ _ _

/-- C8: logout clears the supervisor and leaves the attendance table and
the roster untouched. -/
theorem logout_frame (st : AppState) :
    (logout st).supervisor = none ∧ (logout st).attendance = st.attendance ∧
    (logout st).workers = st.workers :=
  ⟨rfl, rfl, rfl⟩

/-- C9: loadLS never fails: an absent stored record or a record the
parser rejects both yield the supplied fallback value. -/
theorem loadLS_default {α : Type} (parse : String → Option α) (fallback : α) :
    loadLS none parse fallback = fallback ∧
    ∀ raw : String, parse raw = none →
      loadLS (some raw) parse fallback = fallback := by
  refine ⟨rfl, fun raw h => ?_⟩
  unfold loadLS
  by_cases hr : raw = ""
  · simp [hr]
  · simp [hr, h]

/-- C9 witness: both failure modes evaluated with a parser that rejects
everything and fallback 7. -/
theorem loadLS_default_witness :
    loadLS (α := Nat) none (fun _ => none) 7 = 7 ∧
    loadLS (some "bad") (fun _ => none) 7 = 7 :=
  ⟨(loadLS_default (fun _ => none) 7).1,
   (loadLS_default (fun _ => none) 7).2 "bad" rfl⟩

/-- C10: handleBulk overwrites only roster workers' entries: an entry of
the selected date whose worker id is not on the roster keeps its old
value. -/
theorem handleBulk_preserves_nonroster (st : AppState) (status k : String)
    (h : ∀ w ∈ st.workers, k ≠ w.id) :
    (((handleBulk st status).attendance.lookup st.date).getD []).lookup k
      = ((st.attendance.lookup st.date).getD []).lookup k := by
  have hatt : (handleBulk st status).attendance =
      objSet st.attendance st.date
        (st.workers.foldl (fun day w => objSet day w.id status)
          ((st.attendance.lookup st.date).getD [])) := rfl
  rw [hatt, lookup_objSet_self]
  simp only [Option.getD_some]
  exact lookup_foldl_objSet_of_not_mem h

/-- C10 witness: the non-roster entry X9 on the selected date d1 survives
a bulk mark-all-present with its old value. -/
theorem handleBulk_preserves_nonroster_witness :
    (((handleBulk st0 "P").attendance.lookup "d1").getD []).lookup "X9"
      = ((st0.attendance.lookup "d1").getD []).lookup "X9" :=
  handleBulk_preserves_nonroster st0 "P" "X9" (by decide)
